import Mathlib

/-!
Verification of the row-level authorization core of the system-sync
repository. The policy declarations are embedded from
src/schema/RLS_HARDENING.sql and from the policy fix log in
src/unnamed/part_003; the evaluation engine (claim extractor, policy
registry lookup, relationship resolver, decision engine) is not shipped
under src/, so it is modelled from the specification and marked as such.
-/

namespace AuthCore

/-- Scoped identifiers and row field values, kept as strings: the SQL layer
only compares uuid and text values for equality. -/
abbrev Val := String

/-- Roles of RLS_HARDENING.sql: the custom JWT role claim is admin, crew or
client, and unauthenticated requests are anon. -/
inductive Role where
  | admin
  | crew
  | client
  | anon
deriving DecidableEq

/-- Lookup in an association list with string keys; an absent key gives
none, modelling SQL NULL and absent JWT claims. -/
def lookupKV (l : List (String × Val)) (k : String) : Option Val :=
  (l.find? (fun kv => kv.1 == k)).map (fun kv => kv.2)

/-- A database row: a finite map from column names to non-null values.
Absent columns model SQL NULL. -/
abbrev Row := List (String × Val)

/-- Column access on a row. -/
def rowField (r : Row) (f : String) : Option Val :=
  lookupKV r f

/-- Principal: a role plus the scoped ID claims taken from the verified
JWT (RLS_HARDENING.sql header lists role, crew_member_id, contact_id). -/
structure Principal where
  role : Role
  claims : List (String × Val)
deriving DecidableEq

/-- Claim access on a principal; a claim that was never issued is none. -/
def claimOf (p : Principal) (k : String) : Option Val :=
  lookupKV p.claims k

/-- Operations of the policy model; SQL FOR SELECT is read, FOR UPDATE is
update, and FOR ALL covers all four. -/
inductive Operation where
  | create
  | read
  | update
  | delete
deriving DecidableEq

/-- SQL equality on nullable values: NULL never equals anything, so the
comparison is true only when both sides are present and equal. -/
def optValEq : Option Val → Option Val → Bool
  | some a, some b => a == b
  | _, _ => false

/-- One foreign-key hop of a join path: from the source key of the current
row to rows of the target entity whose target key matches it. -/
structure Hop where
  sourceKey : String
  targetEntity : String
  targetKey : String
deriving DecidableEq

/-- Modelled from the spec: the predicate AST of section 3 (Always,
FieldEquals, ExistsRelated, And, Or); the interpreter for it is not under
src/, only the SQL policy clauses it abstracts. -/
inductive Predicate where
  | always
  | fieldEquals (field claimKey : String)
  | existsRelated (path : List Hop) (terminalField claimKey : String)
  | and (a b : Predicate)
  | or (a b : Predicate)
deriving DecidableEq

/-- The data store: each entity name holds a list of rows. -/
abbrev DB := String → List Row

/-- Modelled from the spec: FieldEquals semantics of section 4.3 — the row
field and the principal claim must both be present and equal; absence on
either side is false, never an error. -/
def fieldEqClaim (p : Principal) (f k : String) (r : Row) : Bool :=
  optValEq (rowField r f) (claimOf p k)

/-- One hop lookup: all rows of the target entity whose target key equals
the source key of the given row, both non-null. -/
def lookupHop (db : DB) (h : Hop) (r : Row) : List Row :=
  (db h.targetEntity).filter
    (fun t => optValEq (rowField r h.sourceKey) (rowField t h.targetKey))

/-- Rows reachable from any of the given rows in one hop. -/
def hopStep (db : DB) (h : Hop) : List Row → List Row
  | [] => []
  | r :: rs => lookupHop db h r ++ hopStep db h rs

/-- Modelled from the spec: walking a join path, one lookup per hop
(section 4.3); an empty frontier propagates, which realises the zero-rows
short-circuit. -/
def walkPath (db : DB) : List Hop → List Row → List Row
  | [], rs => rs
  | h :: hs, rs => walkPath db hs (hopStep db h rs)

/-- Modelled from the spec: the Relationship Resolver of section 4.3; the
resolver code itself is not under src/, only the SQL policies it
abstracts. -/
def resolve (db : DB) (p : Principal) : Predicate → Row → Bool
  | .always, _ => true
  | .fieldEquals f k, r => fieldEqClaim p f k r
  | .existsRelated path f k, r =>
      (walkPath db path [r]).any (fun t => fieldEqClaim p f k t)
  | .and a b, r => resolve db p a r && resolve db p b r
  | .or a b, r => resolve db p a r || resolve db p b r

/-- Policy record of section 3: entity, role, granted operations, and the
predicate guarding the grant. -/
structure Policy where
  id : String
  entity : String
  role : Role
  ops : List Operation
  pred : Predicate
deriving DecidableEq

/-- Modelled from the spec: Policy Registry lookup of section 4.2 — the
policies registered for the entity and role whose operation set contains
the requested operation. -/
def policiesFor (reg : List Policy) (e : String) (ρ : Role) (o : Operation) : List Policy :=
  reg.filter (fun pol => pol.entity == e && pol.role == ρ && pol.ops.contains o)

/-- Verdict of a decision. -/
inductive Verdict where
  | allow
  | deny
deriving DecidableEq

/-- Modelled from the spec: the reason codes of sections 4.4 and 7. -/
inductive Reason where
  | adminOverride
  | noPolicy
  | policyMatch (policyId : String)
  | predicateFailed
  | resolutionError
deriving DecidableEq

/-- Modelled from the spec: the decision, reduced to verdict and reason;
timestamps, row keys and record ids of the full Decision Record are
outside the model. -/
structure Decision where
  verdict : Verdict
  reason : Reason
deriving DecidableEq

/-- Recogniser for the unconditional Always predicate. -/
def predIsAlways : Predicate → Bool
  | .always => true
  | _ => false

/-- Modelled from the spec: the first-match loop of section 4.4 steps 3 and
4 — policies are OR-combined in registration order. -/
def firstMatch (db : DB) (p : Principal) (r : Row) : List Policy → Decision
  | [] => ⟨.deny, .predicateFailed⟩
  | pol :: rest =>
      if resolve db p pol.pred r then ⟨.allow, .policyMatch pol.id⟩
      else firstMatch db p r rest

/-- Modelled from the spec: the Decision Engine of section 4.4; the engine
code is not under src/, only the SQL policy data it evaluates. -/
def decide (reg : List Policy) (db : DB) (p : Principal) (e : String) (o : Operation) (r : Row) : Decision :=
  if p.role == .admin
      && (policiesFor reg e .admin o).any (fun pol => predIsAlways pol.pred) then
    ⟨.allow, .adminOverride⟩
  else
    let pols := policiesFor reg e p.role o
    if pols.isEmpty then ⟨.deny, .noPolicy⟩
    else firstMatch db p r pols

/-- Errors of the Claim Extractor (section 7). -/
inductive ExtractError where
  | malformedClaims
  | missingScope
deriving DecidableEq

/-- Role parsing for the JWT role claim string. -/
def roleOfString (s : String) : Option Role :=
  if s == "admin" then some .admin
  else if s == "crew" then some .crew
  else if s == "client" then some .client
  else if s == "anon" then some .anon
  else none

/-- A verified token payload, as an association list of claims. -/
abbrev Payload := List (String × Val)

/-- Modelled from the spec: the scoped ID claims each role carries
(sections 3 and 4.1) — crew carries crew_member_id, client carries
contact_id, admin and anon carry none. -/
def scopedKeys : Role → List String
  | .crew => ["crew_member_id"]
  | .client => ["contact_id"]
  | _ => []

/-- Modelled from the spec: builds the role-granted scoped claims from the
payload; none when a required scoped ID is absent. -/
def scopedClaims (payload : Payload) : Role → Option (List (String × Val))
  | .crew => (lookupKV payload "crew_member_id").map (fun v => [("crew_member_id", v)])
  | .client => (lookupKV payload "contact_id").map (fun v => [("contact_id", v)])
  | .admin => some []
  | .anon => some []

/-- Modelled from the spec: the Claim Extractor of section 4.1; the
extractor code is not under src/, only the JWT schemas it parses
(src/docs/AUTH_MATRIX.md). A missing or unknown role fails first with
malformedClaims, then a missing role-required scoped ID fails with
missingScope. -/
def extract (payload : Payload) : Except ExtractError Principal :=
  match (lookupKV payload "role").bind roleOfString with
  | none => .error .malformedClaims
  | some ρ =>
      match scopedClaims payload ρ with
      | none => .error .missingScope
      | some cs => .ok ⟨ρ, cs⟩

/-- Modelled from the spec: the full pipeline from verified payload to
decision; extraction failures abort the whole call before any policy
lookup (section 7), so no verdict is produced. -/
def decideFromPayload (reg : List Policy) (db : DB) (payload : Payload) (e : String) (o : Operation) (r : Row) : Except ExtractError Decision :=
  (extract payload).map (fun p => AuthCore.decide reg db p e o r)

/-- Modelled from the spec: the state one decide call sees — the immutable
data snapshot plus the append-only audit sink (sections 4.5 and 5). -/
structure World where
  db : DB
  audit : List Decision

/-- Modelled from the spec: decide together with its audit side effect —
exactly one Decision Record is appended and the data snapshot is only
read, never written. -/
def decideW (reg : List Policy) (p : Principal) (e : String) (o : Operation) (r : Row) (w : World) : Decision × World :=
  let d := AuthCore.decide reg w.db p e o r
  (d, ⟨w.db, w.audit ++ [d]⟩)

/-- Shorthand for SQL FOR ALL. -/
def allOps : List Operation := [.create, .read, .update, .delete]

/-- RLS_HARDENING.sql contacts_admin_all: admin full access. -/
def contacts_admin_all : Policy :=
  ⟨"contacts_admin_all", "contacts", .admin, allOps, .always⟩

/-- RLS_HARDENING.sql contacts_crew_read: crew read contacts on their
assigned jobs — contacts.id to jobs.contact_id, jobs.id to
job_crew_assignments.job_id, terminal crew_member_id equals the claim. -/
def contacts_crew_read : Policy :=
  ⟨"contacts_crew_read", "contacts", .crew, [.read],
    .existsRelated [⟨"id", "jobs", "contact_id"⟩, ⟨"id", "job_crew_assignments", "job_id"⟩]
      "crew_member_id" "crew_member_id"⟩

/-- RLS_HARDENING.sql contacts_client_own: client reads own contact row. -/
def contacts_client_own : Policy :=
  ⟨"contacts_client_own", "contacts", .client, [.read], .fieldEquals "id" "contact_id"⟩

/-- RLS_HARDENING.sql jobs_admin_all: admin full access. -/
def jobs_admin_all : Policy :=
  ⟨"jobs_admin_all", "jobs", .admin, allOps, .always⟩

/-- RLS_HARDENING.sql jobs_crew_read: jobs.id to
job_crew_assignments.job_id, terminal crew_member_id equals the claim. -/
def jobs_crew_read : Policy :=
  ⟨"jobs_crew_read", "jobs", .crew, [.read],
    .existsRelated [⟨"id", "job_crew_assignments", "job_id"⟩] "crew_member_id" "crew_member_id"⟩

/-- RLS_HARDENING.sql jobs_crew_update: same predicate, update only. -/
def jobs_crew_update : Policy :=
  ⟨"jobs_crew_update", "jobs", .crew, [.update],
    .existsRelated [⟨"id", "job_crew_assignments", "job_id"⟩] "crew_member_id" "crew_member_id"⟩

/-- RLS_HARDENING.sql jobs_client_own: jobs.contact_id equals the client
contact_id claim. -/
def jobs_client_own : Policy :=
  ⟨"jobs_client_own", "jobs", .client, [.read], .fieldEquals "contact_id" "contact_id"⟩

/-- RLS_HARDENING.sql job_crew_assignments_admin_all. -/
def job_crew_assignments_admin_all : Policy :=
  ⟨"job_crew_assignments_admin_all", "job_crew_assignments", .admin, allOps, .always⟩

/-- RLS_HARDENING.sql job_crew_assignments_crew_own. -/
def job_crew_assignments_crew_own : Policy :=
  ⟨"job_crew_assignments_crew_own", "job_crew_assignments", .crew, [.read],
    .fieldEquals "crew_member_id" "crew_member_id"⟩

/-- RLS_HARDENING.sql job_crew_assignments_client_read: assignment.job_id
to jobs.id, terminal contact_id equals the claim. -/
def job_crew_assignments_client_read : Policy :=
  ⟨"job_crew_assignments_client_read", "job_crew_assignments", .client, [.read],
    .existsRelated [⟨"job_id", "jobs", "id"⟩] "contact_id" "contact_id"⟩

/-- RLS_HARDENING.sql invoices_admin_all. -/
def invoices_admin_all : Policy :=
  ⟨"invoices_admin_all", "invoices", .admin, allOps, .always⟩

/-- RLS_HARDENING.sql invoices_client_own as written there: invoice.job_id
to jobs.id, terminal contact_id equals the claim (ownership via the
job). -/
def invoices_client_own : Policy :=
  ⟨"invoices_client_own", "invoices", .client, [.read],
    .existsRelated [⟨"job_id", "jobs", "id"⟩] "contact_id" "contact_id"⟩

/-- RLS_HARDENING.sql notifications_admin_read: SELECT only — the single
admin policy on notifications. -/
def notifications_admin_read : Policy :=
  ⟨"notifications_admin_read", "notifications", .admin, [.read], .always⟩

/-- RLS_HARDENING.sql notifications_crew_own: FOR ALL, own rows. -/
def notifications_crew_own : Policy :=
  ⟨"notifications_crew_own", "notifications", .crew, allOps,
    .fieldEquals "crew_member_id" "crew_member_id"⟩

/-- RLS_HARDENING.sql notifications_client_own: FOR ALL, own rows. -/
def notifications_client_own : Policy :=
  ⟨"notifications_client_own", "notifications", .client, allOps,
    .fieldEquals "contact_id" "contact_id"⟩

/-- The Policy Registry as declared in src/schema/RLS_HARDENING.sql, for
the tables the claims touch. -/
def rlsRegistry : List Policy :=
  [contacts_admin_all, contacts_crew_read, contacts_client_own,
   jobs_admin_all, jobs_crew_read, jobs_crew_update, jobs_client_own,
   job_crew_assignments_admin_all, job_crew_assignments_crew_own,
   job_crew_assignments_client_read,
   invoices_admin_all, invoices_client_own,
   notifications_admin_read, notifications_crew_own, notifications_client_own]

/-- Policy invoices_client_own as recreated per src/unnamed/part_003: the
live policy is USING (customer_id = public.get_contact_id()), a direct
field match on the invoice row, replacing the via-job clause of
RLS_HARDENING.sql. -/
def invoices_client_own_fixed : Policy :=
  ⟨"invoices_client_own", "invoices", .client, [.read],
    .fieldEquals "customer_id" "contact_id"⟩

/-- The registry after the column-mismatch fixes of src/unnamed/part_003,
for the invoices table. -/
def rlsRegistryFixed : List Policy :=
  [contacts_admin_all, contacts_crew_read, contacts_client_own,
   jobs_admin_all, jobs_crew_read, jobs_crew_update, jobs_client_own,
   job_crew_assignments_admin_all, job_crew_assignments_crew_own,
   job_crew_assignments_client_read,
   invoices_admin_all, invoices_client_own_fixed,
   notifications_admin_read, notifications_crew_own, notifications_client_own]

/-- RLS_HARDENING.sql conversations_participant_access USING clause: crew
match on initiator_crew_id or recipient_crew_id, or client match on
initiator_contact_id or recipient_contact_id. -/
def conversationsParticipantUsing (p : Principal) (r : Row) : Bool :=
  (p.role == .crew
      && (fieldEqClaim p "initiator_crew_id" "crew_member_id" r
          || fieldEqClaim p "recipient_crew_id" "crew_member_id" r))
    || (p.role == .client
      && (fieldEqClaim p "initiator_contact_id" "contact_id" r
          || fieldEqClaim p "recipient_contact_id" "contact_id" r))

/-- Visibility of a conversations row for SELECT under RLS_HARDENING.sql:
the permissive OR of conversations_admin_all and
conversations_participant_access. -/
def conversationsVisible (p : Principal) (r : Row) : Bool :=
  (p.role == .admin) || conversationsParticipantUsing p r

/-- RLS_HARDENING.sql messages_participant_access USING and WITH CHECK
clause: conversation_id IN (SELECT id FROM conversations). The clause has
no role test, FOR ALL applies it to every operation, and under RLS the
subquery only sees the conversations rows visible to the caller. -/
def messagesParticipantUsing (db : DB) (p : Principal) (o : Operation) (r : Row) : Bool :=
  match o, rowField r "conversation_id" with
  | _, none => false
  | _, some v =>
      ((db "conversations").filter (fun c => conversationsVisible p c)).any
        (fun c => rowField c "id" == some v)

/-- Predicate of invoices_client_own as written in RLS_HARDENING.sql:
ownership of the invoice via its job. -/
def invoiceViaJobPred : Predicate :=
  .existsRelated [⟨"job_id", "jobs", "id"⟩] "contact_id" "contact_id"

/-- The via-job ownership test for an invoice row. -/
def invoiceJobOwned (db : DB) (p : Principal) (r : Row) : Bool :=
  resolve db p invoiceViaJobPred r

/-- Empty data snapshot. -/
def emptyDb : DB := fun _ => []

/-- Concrete admin principal: the admin JWT carries role admin and no
scoped ID in the Principal model. -/
def adminP : Principal := ⟨.admin, []⟩

/-- Concrete anon principal. -/
def anonP : Principal := ⟨.anon, []⟩

/-- Concrete client principal with contact_id C1. -/
def clientP : Principal := ⟨.client, [("contact_id", "C1")]⟩

/-- Helper: decide denies with reason noPolicy whenever the registry holds
no policy for the entity, role and operation. -/
theorem decide_empty_policies (reg : List Policy) (db : DB) (p : Principal) (e : String) (o : Operation) (r : Row) (h : policiesFor reg e p.role o = []) :
    AuthCore.decide reg db p e o r = ⟨.deny, .noPolicy⟩ := by
  rcases p with ⟨ρ, cs⟩
  cases ρ <;> simp_all [AuthCore.decide]

/-- C1: for every admin principal with an Always admin policy registered
for the entity and operation, decide returns ALLOW with reason
AdminOverride for every data snapshot and every row; the quantification
over the snapshot shows no relationship resolution is consulted. -/
theorem admin_always_allows (reg : List Policy) (db : DB) (p : Principal) (e : String) (o : Operation) (r : Row) (hrole : p.role = .admin) (halways : (policiesFor reg e .admin o).any (fun pol => predIsAlways pol.pred) = true) :
    AuthCore.decide reg db p e o r = ⟨.allow, .adminOverride⟩ := by
  simp [AuthCore.decide, hrole, halways]

/-- Witness for C1 at the registry of RLS_HARDENING.sql: jobs_admin_all is
an Always policy, so an admin may delete a jobs row it does not own, over
the empty snapshot. -/
theorem admin_always_allows_witness :
    AuthCore.decide rlsRegistry emptyDb adminP "jobs" .delete [("id", "J1"), ("contact_id", "C9")] = ⟨.allow, .adminOverride⟩ :=
  admin_always_allows rlsRegistry emptyDb adminP "jobs" .delete
    [("id", "J1"), ("contact_id", "C9")] rfl (by decide)

/-- C2: a FieldEquals predicate whose claim is absent from the principal
or whose field is absent from the row resolves to false; the resolver is
a total Bool function, so no error is possible and absence never matches
vacuously. -/
theorem fieldEquals_absent_is_false (db : DB) (p : Principal) (f k : String) (r : Row) (h : claimOf p k = none ∨ rowField r f = none) :
    resolve db p (.fieldEquals f k) r = false := by
  rcases h with h | h
  · simp only [resolve, fieldEqClaim, h]
    cases rowField r f <;> rfl
  · simp only [resolve, fieldEqClaim, h]
    rfl

/-- Witness for C2: a client principal without any contact_id claim fails
the contacts_client_own style FieldEquals test on a concrete row. -/
theorem fieldEquals_absent_is_false_witness :
    resolve emptyDb ⟨.client, []⟩ (.fieldEquals "contact_id" "contact_id") [("id", "J1")] = false :=
  fieldEquals_absent_is_false emptyDb ⟨.client, []⟩ "contact_id" "contact_id"
    [("id", "J1")] (Or.inl rfl)

/-- C3: an empty policy answer from the registry makes decide return DENY
with reason NoPolicy, and in particular the registry of
RLS_HARDENING.sql holds no anon policy on invoices, so an anon principal
is denied every operation on invoices with reason NoPolicy. -/
theorem no_policy_denies :
    (∀ (reg : List Policy) (db : DB) (p : Principal) (e : String) (o : Operation) (r : Row),
        policiesFor reg e p.role o = [] → AuthCore.decide reg db p e o r = ⟨.deny, .noPolicy⟩)
    ∧ (∀ (db : DB) (o : Operation) (r : Row),
        AuthCore.decide rlsRegistry db anonP "invoices" o r = ⟨.deny, .noPolicy⟩) := by
  refine ⟨decide_empty_policies, fun db o r => ?_⟩
  exact decide_empty_policies rlsRegistry db anonP "invoices" o r (by cases o <;> rfl)

/-- Witness for C3: the concrete anon read of a concrete invoices row is
denied with reason NoPolicy. -/
theorem no_policy_denies_witness :
    AuthCore.decide rlsRegistry emptyDb anonP "invoices" .read [("id", "I1")] = ⟨.deny, .noPolicy⟩ :=
  no_policy_denies.1 rlsRegistry emptyDb anonP "invoices" .read [("id", "I1")] (by decide)

/-- Helper: membership in one hop step over a frontier. -/
theorem mem_hopStep (db : DB) (h : Hop) (rs : List Row) (x : Row) :
    x ∈ hopStep db h rs ↔ ∃ r ∈ rs, x ∈ lookupHop db h r := by
  induction rs with
  | nil => simp [hopStep]
  | cons a as ih => simp [hopStep, ih, List.mem_append, or_and_right, exists_or]

/-- Helper: the two-hop ExistsRelated resolution unfolded to an
existential over the intermediate and terminal rows. -/
theorem two_hop_resolve_iff (db : DB) (p : Principal) (h₁ h₂ : Hop) (f k : String) (r : Row) :
    resolve db p (.existsRelated [h₁, h₂] f k) r = true ↔
      ∃ r₂ r₁, r₁ ∈ lookupHop db h₁ r ∧ r₂ ∈ lookupHop db h₂ r₁ ∧ fieldEqClaim p f k r₂ = true := by
  have hres : resolve db p (.existsRelated [h₁, h₂] f k) r
      = (hopStep db h₂ (hopStep db h₁ [r])).any (fun t => fieldEqClaim p f k t) := rfl
  rw [hres, List.any_eq_true]
  constructor
  · rintro ⟨r₂, hmem, heq⟩
    rcases (mem_hopStep db h₂ (hopStep db h₁ [r]) r₂).mp hmem with ⟨r₁, hm₁, hm₂⟩
    rcases (mem_hopStep db h₁ [r] r₁).mp hm₁ with ⟨r₀, hm₀, hl₀⟩
    rcases List.mem_singleton.mp hm₀
    exact ⟨r₂, r₁, hl₀, hm₂, heq⟩
  · rintro ⟨r₂, r₁, hl₁, hl₂, heq⟩
    refine ⟨r₂, ?_, heq⟩
    exact (mem_hopStep db h₂ (hopStep db h₁ [r]) r₂).mpr
      ⟨r₁, (mem_hopStep db h₁ [r] r₁).mpr ⟨r, List.mem_singleton.mpr rfl, hl₁⟩, hl₂⟩

/-- C4: over a two-hop join path, ExistsRelated is true exactly when some
reachable terminal row carries the claimed value; a missing intermediate
join row forces false, and intermediate rows whose terminal continuations
all mismatch the claim force false as well. -/
theorem existsRelated_two_hop (db : DB) (p : Principal) (h₁ h₂ : Hop) (f k : String) (r : Row) :
    (resolve db p (.existsRelated [h₁, h₂] f k) r = true ↔
        ∃ r₂ r₁, r₁ ∈ lookupHop db h₁ r ∧ r₂ ∈ lookupHop db h₂ r₁ ∧ fieldEqClaim p f k r₂ = true)
    ∧ (lookupHop db h₁ r = [] → resolve db p (.existsRelated [h₁, h₂] f k) r = false)
    ∧ ((∀ r₁ ∈ lookupHop db h₁ r, ∀ r₂ ∈ lookupHop db h₂ r₁, fieldEqClaim p f k r₂ = false) →
        resolve db p (.existsRelated [h₁, h₂] f k) r = false) := by
  refine ⟨two_hop_resolve_iff db p h₁ h₂ f k r, fun hempty => ?_, fun hmiss => ?_⟩
  · have hstep : hopStep db h₁ [r] = [] := by simp [hopStep, hempty]
    show (hopStep db h₂ (hopStep db h₁ [r])).any (fun t => fieldEqClaim p f k t) = false
    rw [hstep]
    rfl
  · cases hb : resolve db p (.existsRelated [h₁, h₂] f k) r with
    | false => rfl
    | true =>
        rcases (two_hop_resolve_iff db p h₁ h₂ f k r).mp hb with ⟨r₂, r₁, hl₁, hl₂, heq⟩
        rw [hmiss r₁ hl₁ r₂ hl₂] at heq
        exact absurd heq (by simp)

/-- Concrete snapshot for the C4 witness, in the shape of
contacts_crew_read: a contacts row with no owning job at all. -/
def noJobsDb : DB :=
  fun e => if e == "job_crew_assignments" then [[("job_id", "J1"), ("crew_member_id", "M1")]] else []

/-- Witness for C4: with no jobs row at all, the intermediate hop of the
contacts_crew_read join path is empty, so the predicate resolves false
for a crew principal even though an assignment row exists. -/
theorem existsRelated_two_hop_witness :
    resolve noJobsDb ⟨.crew, [("crew_member_id", "M1")]⟩
      (.existsRelated [⟨"id", "jobs", "contact_id"⟩, ⟨"id", "job_crew_assignments", "job_id"⟩]
        "crew_member_id" "crew_member_id") [("id", "C1")] = false :=
  (existsRelated_two_hop noJobsDb ⟨.crew, [("crew_member_id", "M1")]⟩
    ⟨"id", "jobs", "contact_id"⟩ ⟨"id", "job_crew_assignments", "job_id"⟩
    "crew_member_id" "crew_member_id" [("id", "C1")]).2.1 rfl

/-- Concrete invoice row for C5: directly owned through customer_id, but
its job J9 belongs to another contact. -/
def cexInvoice : Row := [("id", "I1"), ("customer_id", "C1"), ("job_id", "J9")]

/-- Concrete snapshot for C5: job J9 belongs to contact C2, not to the
calling client C1. -/
def cexDb : DB :=
  fun e => if e == "jobs" then [[("id", "J9"), ("contact_id", "C2")]] else []

/-- C5 counterexample: under the invoices_client_own policy recreated per
src/unnamed/part_003 (direct customer_id match), the client C1 is ALLOWED
to read invoice I1 although the job of the invoice belongs to contact C2,
so ALLOW does not imply ownership via the job. -/
theorem invoices_client_via_job_refuted :
    AuthCore.decide rlsRegistryFixed cexDb clientP "invoices" .read cexInvoice
        = ⟨.allow, .policyMatch "invoices_client_own"⟩
    ∧ invoiceJobOwned cexDb clientP cexInvoice = false := by
  exact ⟨rfl, rfl⟩

/-- C5 amended: under the fixed policy of src/unnamed/part_003, a client
read of an invoices row is allowed exactly when the customer_id field of
the row equals the contact_id claim of the client — a direct field match,
not the via-job predicate of RLS_HARDENING.sql. -/
theorem invoices_client_direct_match (db : DB) (p : Principal) (r : Row) (h : p.role = .client) :
    AuthCore.decide rlsRegistryFixed db p "invoices" .read r
        = ⟨.allow, .policyMatch "invoices_client_own"⟩
      ↔ fieldEqClaim p "customer_id" "contact_id" r = true := by
  rcases p with ⟨ρ, cs⟩
  cases ρ
  case admin => simp at h
  case crew => simp at h
  case anon => simp at h
  case client => ?_
  have hkey : AuthCore.decide rlsRegistryFixed db ⟨.client, cs⟩ "invoices" .read r
      = (if fieldEqClaim ⟨.client, cs⟩ "customer_id" "contact_id" r
          then (⟨.allow, .policyMatch "invoices_client_own"⟩ : Decision)
          else ⟨.deny, .predicateFailed⟩) := rfl
  rw [hkey]
  cases hb : fieldEqClaim ⟨.client, cs⟩ "customer_id" "contact_id" r <;> simp [hb]

/-- Witness for the amended C5: the concrete client C1 with the concrete
directly owned invoice is allowed. -/
theorem invoices_client_direct_match_witness :
    AuthCore.decide rlsRegistryFixed cexDb clientP "invoices" .read cexInvoice
      = ⟨.allow, .policyMatch "invoices_client_own"⟩ :=
  (invoices_client_direct_match cexDb clientP cexInvoice rfl).mpr (by decide)

/-- C6: when the role claim is missing or not one of the four known roles,
extract fails with malformedClaims, and the full pipeline aborts with that
error for every registry, snapshot, entity, operation and row — before
any policy lookup, and never as a DENY verdict. -/
theorem malformed_role_errors (payload : Payload) (reg : List Policy) (db : DB) (e : String) (o : Operation) (r : Row) (h : (lookupKV payload "role").bind roleOfString = none) :
    extract payload = .error .malformedClaims
    ∧ decideFromPayload reg db payload e o r = .error .malformedClaims := by
  have hex : extract payload = .error .malformedClaims := by
    unfold extract
    rw [h]
  refine ⟨hex, ?_⟩
  unfold decideFromPayload
  rw [hex]
  rfl

/-- Witness for C6: a payload carrying an unknown role string fails with
malformedClaims and the pipeline aborts. -/
theorem malformed_role_errors_witness :
    extract [("role", "superuser"), ("contact_id", "C1")] = .error .malformedClaims
    ∧ decideFromPayload rlsRegistry emptyDb [("role", "superuser"), ("contact_id", "C1")]
        "jobs" .read [] = .error .malformedClaims :=
  malformed_role_errors [("role", "superuser"), ("contact_id", "C1")]
    rlsRegistry emptyDb "jobs" .read [] rfl

/-- The role-scope invariant of section 3: the claim keys of a principal
are exactly the scoped IDs its role grants — none for admin and anon, the
crew_member_id for crew, the contact_id for client. -/
def scopeInvariant (p : Principal) : Prop :=
  p.claims.map (fun kv => kv.1) = scopedKeys p.role

/-- C7: every principal produced by extract satisfies the role-scope
invariant: an admin principal carries no scoped ID claim at all, and a
non-admin principal carries exactly the scoped IDs its role grants. -/
theorem extract_scope_invariant (payload : Payload) (p : Principal) (h : extract payload = .ok p) :
    scopeInvariant p := by
  unfold extract at h
  cases hrole : (lookupKV payload "role").bind roleOfString with
  | none => rw [hrole] at h; exact absurd h (by simp)
  | some ρ =>
      rw [hrole] at h
      have h' : (match scopedClaims payload ρ with
          | none => (Except.error ExtractError.missingScope : Except ExtractError Principal)
          | some cs => Except.ok ⟨ρ, cs⟩) = Except.ok p := h
      cases hsc : scopedClaims payload ρ with
      | none => rw [hsc] at h'; exact absurd h' (by simp)
      | some cs =>
          rw [hsc] at h'
          injection h' with h₀
          subst h₀
          cases ρ
          case admin =>
            injection hsc with h₁
            subst h₁
            rfl
          case anon =>
            injection hsc with h₁
            subst h₁
            rfl
          case crew =>
            cases hv : lookupKV payload "crew_member_id" with
            | none => rw [scopedClaims, hv] at hsc; exact absurd hsc (by simp)
            | some v =>
                rw [scopedClaims, hv] at hsc
                simp at hsc
                subst hsc
                rfl
          case client =>
            cases hv : lookupKV payload "contact_id" with
            | none => rw [scopedClaims, hv] at hsc; exact absurd hsc (by simp)
            | some v =>
                rw [scopedClaims, hv] at hsc
                simp at hsc
                subst hsc
                rfl

/-- Witness for C7: extracting a crew payload that also carries a stray
contact_id claim yields a principal carrying exactly the crew_member_id. -/
theorem extract_scope_invariant_witness :
    scopeInvariant ⟨.crew, [("crew_member_id", "M1")]⟩ :=
  extract_scope_invariant
    [("role", "crew"), ("crew_member_id", "M1"), ("contact_id", "C9")]
    ⟨.crew, [("crew_member_id", "M1")]⟩ rfl

/-- C8: decide is deterministic and side-effect-free on the data: a second
call with identical principal, entity, operation and row under the same
registry snapshot returns the same verdict and reason even after the
first call has appended its Decision Record, and neither call writes to
the data snapshot. -/
theorem decide_deterministic_no_writes (reg : List Policy) (p : Principal) (e : String) (o : Operation) (r : Row) (w : World) :
    (decideW reg p e o r w).1 = (decideW reg p e o r ((decideW reg p e o r w).2)).1
    ∧ ((decideW reg p e o r w).2).db = w.db
    ∧ (((decideW reg p e o r ((decideW reg p e o r w).2)).2)).db = w.db :=
  ⟨rfl, rfl, rfl⟩

/-- C9: under the registry of RLS_HARDENING.sql the only admin policy on
notifications is notifications_admin_read for SELECT, so an admin
principal is denied Create, Update and Delete on every notifications row
while Read is allowed by admin override — an exception to the
admin-full-access pattern. -/
theorem notifications_admin_read_only (db : DB) (p : Principal) (r : Row) (h : p.role = .admin) :
    AuthCore.decide rlsRegistry db p "notifications" .create r = ⟨.deny, .noPolicy⟩
    ∧ AuthCore.decide rlsRegistry db p "notifications" .update r = ⟨.deny, .noPolicy⟩
    ∧ AuthCore.decide rlsRegistry db p "notifications" .delete r = ⟨.deny, .noPolicy⟩
    ∧ AuthCore.decide rlsRegistry db p "notifications" .read r = ⟨.allow, .adminOverride⟩ := by
  rcases p with ⟨ρ, cs⟩
  cases ρ
  case crew => simp at h
  case client => simp at h
  case anon => simp at h
  case admin => exact ⟨rfl, rfl, rfl, rfl⟩

/-- Witness for C9: the concrete admin update of a concrete notifications
row is denied. -/
theorem notifications_admin_read_only_witness :
    AuthCore.decide rlsRegistry emptyDb adminP "notifications" .update [("id", "N1")] = ⟨.deny, .noPolicy⟩ :=
  (notifications_admin_read_only emptyDb adminP [("id", "N1")] rfl).2.1

/-- C10: the messages participant policy carries no role test: for every
principal of any role, every operation and every messages row, the clause
grants access exactly when some conversations row visible to that
principal under the conversations policies carries the conversation_id of
the message. -/
theorem messages_participant_visibility (db : DB) (p : Principal) (o : Operation) (r : Row) :
    messagesParticipantUsing db p o r = true ↔
      ∃ v, rowField r "conversation_id" = some v
        ∧ ∃ c, c ∈ db "conversations" ∧ conversationsVisible p c = true ∧ rowField c "id" = some v := by
  unfold messagesParticipantUsing
  cases hcid : rowField r "conversation_id" with
  | none => simp
  | some v =>
      simp only [List.any_eq_true, List.mem_filter, Option.some.injEq]
      constructor
      · rintro ⟨c, ⟨hmem, hvis⟩, hid⟩
        exact ⟨v, rfl, c, hmem, hvis, by simpa using hid⟩
      · rintro ⟨v', hv', c, hmem, hvis, hid⟩
        cases hv'
        exact ⟨c, ⟨hmem, hvis⟩, by simpa using hid⟩

end AuthCore
